import Mathlib

/-!
Verification of the alicloud-exporter core: a shallow embedding of the
client layer (metric cache, tag cache, rate limiter, API client) and the
collector/orchestrator layer, with theorems checking the specification's
claims against the embedded code.

Conventions of the embedding:
* Go `time.Time` instants and `time.Duration` values are modelled as `ℤ`
  (an abstract clock); `time.Since(t)` at instant `now` is `now - t`.
* Go `float64` metric values and Prometheus gauge/counter values are
  modelled as `ℚ`.
* Go maps are modelled as association lists with first-match lookup;
  map assignment replaces the existing binding.
* Remote calls are modelled as oracles passed in as arguments
  (`Except String _` for fallible calls).
-/

namespace AlicloudExporter

/-- Go map read `m[k]`: first binding for `k`, if any. -/
def assocLookup {β : Type} (l : List (String × β)) (k : String) : Option β :=
  match l with
  | [] => none
  | p :: rest => if p.1 = k then some p.2 else assocLookup rest k

/-- Go map assignment `m[k] = v`: replace any existing binding for `k`. -/
def assocUpdate {β : Type} (l : List (String × β)) (k : String) (v : β) :
    List (String × β) :=
  (k, v) :: l.filter (fun p => p.1 ≠ k)

/-- `MetricData` from internal/collector/collector.go: one decoded data point
of a `DescribeMetricLast` response. -/
structure MetricData where
  timestamp : ℤ
  instanceID : String
  port : String
  protocol : String
  vip : String
  sum : ℚ
  maximum : ℚ
  average : ℚ
  minimum : ℚ
deriving Repr, DecidableEq

/-- Value extraction in `BaseCollector.CollectMetric`
(internal/collector/collector.go lines 171-178, repeated verbatim in
`SLBCollector.CollectSLBMetric`):
`value := data.Average; if value == 0 { value = data.Maximum };
 if value == 0 { value = data.Sum }`. -/
def extractValue (data : MetricData) : ℚ :=
  let v1 := if data.average = 0 then data.maximum else data.average
  if v1 = 0 then data.sum else v1

/-! ### Cache layer (internal/client, CacheEntry / TagCache / MetricCache) -/

/-- `CacheEntry`: a cached metric response with its creation instant and TTL. -/
structure CacheEntry (α : Type) where
  data : α
  timestamp : ℤ
  ttl : ℤ
deriving Repr, DecidableEq

/-- `CacheEntry.IsExpired`: `time.Since(ce.Timestamp) > ce.TTL`. -/
def CacheEntry.isExpired {α : Type} (now : ℤ) (ce : CacheEntry α) : Bool :=
  now - ce.timestamp > ce.ttl

/-- `MetricCache`: map from cache key to `CacheEntry`, with a per-instance TTL. -/
structure MetricCache (α : Type) where
  cache : List (String × CacheEntry α)
  ttl : ℤ
deriving Repr, DecidableEq

/-- `NewMetricCache(ttl)`. -/
def MetricCache.new (α : Type) (ttl : ℤ) : MetricCache α := ⟨[], ttl⟩

/-- `MetricCache.Get`: returns `(nil, false)` when the key is absent or the
entry expired, `(entry.Data, true)` otherwise.  Purely a read: the map is
not modified (the Go method only takes a read lock and never deletes). -/
def MetricCache.get {α : Type} (mc : MetricCache α) (now : ℤ) (key : String) :
    Option α × Bool :=
  match assocLookup mc.cache key with
  | none => (none, false)
  | some entry =>
    if entry.isExpired now then (none, false) else (some entry.data, true)

/-- `MetricCache.Set`: unconditionally store a fresh entry stamped `now`
with the cache's TTL. -/
def MetricCache.set {α : Type} (mc : MetricCache α) (now : ℤ) (key : String)
    (data : α) : MetricCache α :=
  { mc with cache := assocUpdate mc.cache key ⟨data, now, mc.ttl⟩ }

/-- `MetricCache.Clear`: sweep all expired entries. -/
def MetricCache.clear {α : Type} (mc : MetricCache α) (now : ℤ) : MetricCache α :=
  { mc with cache := mc.cache.filter (fun p => ¬ p.2.isExpired now) }

/-- A set of resource tags: Go `map[string]string`. -/
abbrev Tags := List (String × String)

/-- `TagCache`: map from instance ID to its tags.  The struct carries a
`ttl` field, but no entry timestamps exist: the stored value is a bare
`map[string]map[string]string`. -/
structure TagCache where
  cache : List (String × Tags)
  ttl : ℤ
deriving Repr, DecidableEq

/-- `NewTagCache(ttl)`. -/
def TagCache.new (ttl : ℤ) : TagCache := ⟨[], ttl⟩

/-- `TagCache.Get`: `tags, found := tc.cache[key]; return tags, found`.
No clock is consulted and no expiry check exists in the source. -/
def TagCache.get (tc : TagCache) (key : String) : Option Tags × Bool :=
  match assocLookup tc.cache key with
  | none => (none, false)
  | some tags => (some tags, true)

/-- `TagCache.Set`: `tc.cache[key] = tags`. -/
def TagCache.set (tc : TagCache) (key : String) (tags : Tags) : TagCache :=
  { tc with cache := assocUpdate tc.cache key tags }

/-! ### Rate limiter (internal/client, RateLimiter)

The token channel of capacity `burst` is modelled by the number of tokens
it currently holds; the refill goroutine's tick is `refillTick`; the
cancellation context set by `Close` is the `closed` flag. -/

/-- `RateLimiter` state: `tokens` is the number of tokens buffered in the
channel (capacity `burst`); `closed` records whether `cancel()` ran. -/
structure RateLimiter where
  tokens : ℕ
  burst : ℕ
  requests : ℕ
  closed : Bool
deriving Repr, DecidableEq

/-- `NewRateLimiter(requestsPerSecond, burst)`: the channel is filled with
exactly `burst` initial tokens and the refill goroutine is started. -/
def NewRateLimiter (requestsPerSecond burst : ℕ) : RateLimiter :=
  { tokens := burst, burst := burst, requests := requestsPerSecond,
    closed := false }

/-- Outcome of `RateLimiter.Wait`: `ok` means a token was received;
`timeout` means the 5-second timeout context fired first. -/
inductive WaitResult where
  | ok
  | timeout
deriving Repr, DecidableEq

/-- `RateLimiter.Wait` in the absence of a concurrent refill tick: a
buffered token is consumed immediately; with no token buffered the select
blocks until the timeout context fires and returns its error.  `Wait`
selects only on the caller's timeout context and the token channel — the
limiter's own cancellation context (`closed`) is never consulted. -/
def RateLimiter.wait (rl : RateLimiter) : WaitResult × RateLimiter :=
  if rl.tokens > 0 then (.ok, { rl with tokens := rl.tokens - 1 })
  else (.timeout, rl)

/-- One tick of `refillTokens`: after cancellation the goroutine has
returned and ticks do nothing; otherwise one token is added unless the
channel is full (the non-blocking send's default branch drops the tick). -/
def RateLimiter.refillTick (rl : RateLimiter) : RateLimiter :=
  if rl.closed then rl
  else if rl.tokens < rl.burst then { rl with tokens := rl.tokens + 1 }
  else rl

/-- `RateLimiter.Close`: cancel the refill context and stop the ticker.
The token channel is neither drained nor closed. -/
def RateLimiter.close (rl : RateLimiter) : RateLimiter :=
  { rl with closed := true }

/-- Run `n` consecutive `Wait` calls, collecting their outcomes. -/
def RateLimiter.waitN (rl : RateLimiter) : ℕ → List WaitResult × RateLimiter
  | 0 => ([], rl)
  | n + 1 =>
    let (r, rl1) := rl.wait
    let (rs, rl2) := rl1.waitN n
    (r :: rs, rl2)

/-! ### API client (internal/client, Client.GetMetricData) -/

/-- `Client` state relevant to `GetMetricData`: the metric cache and the
rate limiter (the CMS connection handle is the `fetch` oracle below). -/
structure Client (α : Type) where
  cache : MetricCache α
  rateLimiter : RateLimiter
deriving Repr, DecidableEq

/-- The cache key `fmt.Sprintf("%s:%s", namespace, metricName)`;
`ns` is the Go parameter `namespace`. -/
def cacheKey (ns metricName : String) : String :=
  ns ++ ":" ++ metricName

/-- Result of one `GetMetricData` call: the returned value or error, the
updated client state, and instrumentation counting how many rate-limiter
waits and remote `DescribeMetricLast` calls were issued. -/
structure GetMetricOutcome (α : Type) where
  result : Except String α
  client : Client α
  rlWaits : ℕ
  remoteCalls : ℕ
deriving Repr

/-- `Client.GetMetricData`: check the cache; on a hit return the cached
response; on a miss wait on the rate limiter (propagating its error),
perform the remote call via the `fetch` oracle (propagating its error),
cache a successful response and return it. -/
def Client.getMetricData {α : Type} (c : Client α) (now : ℤ)
    (fetch : String → String → Except String α)
    (ns metricName : String) : GetMetricOutcome α :=
  let key := cacheKey ns metricName
  match c.cache.get now key with
  | (some cachedData, true) => ⟨.ok cachedData, c, 0, 0⟩
  | _ =>
    let (wres, rl1) := c.rateLimiter.wait
    match wres with
    | .timeout =>
      ⟨.error "rate limiter wait failed", { c with rateLimiter := rl1 }, 1, 0⟩
    | .ok =>
      match fetch ns metricName with
      | .error e =>
        ⟨.error e, { c with rateLimiter := rl1 }, 1, 1⟩
      | .ok response =>
        ⟨.ok response,
         { cache := c.cache.set now key response, rateLimiter := rl1 }, 1, 1⟩

/-! ### SLB tag lookup (internal/client, Client.GetSLBInstanceTags) -/

/-- One load balancer returned by a region's `DescribeLoadBalancers` call. -/
structure LoadBalancer where
  loadBalancerId : String
  tags : List (String × String)
deriving Repr, DecidableEq

/-- `instanceTags[tag.TagKey] = tag.TagValue` over the response's tag list. -/
def extractInstanceTags (tagList : List (String × String)) : Tags :=
  tagList.foldl (fun acc t => assocUpdate acc t.1 t.2) []

/-- Intermediate state of a `GetSLBInstanceTags` call: the result map
being assembled, the still-outstanding ID set, the tag cache and rate
limiter being threaded through, the pending error, and instrumentation
counting remote region listings and rate-limiter waits. -/
structure SLBFetchState where
  tagsMap : List (String × Tags)
  uncached : List String
  tagCache : TagCache
  rateLimiter : RateLimiter
  err : Option String
  remoteCalls : ℕ
  rlWaits : ℕ
deriving Repr

/-- Body of the per-load-balancer loop: skip IDs not in the outstanding
set; otherwise extract the tags, record them in the result map and the
tag cache, and remove the ID from the outstanding set. -/
def processLB (s : SLBFetchState) (lb : LoadBalancer) : SLBFetchState :=
  if lb.loadBalancerId ∈ s.uncached then
    let t := extractInstanceTags lb.tags
    { s with
      tagsMap := assocUpdate s.tagsMap lb.loadBalancerId t,
      tagCache := s.tagCache.set lb.loadBalancerId t,
      uncached := s.uncached.filter (fun id => id ≠ lb.loadBalancerId) }
  else s

/-- Body of the per-region loop: once an error aborted the call or the
outstanding set is empty the remaining regions are not visited; otherwise
wait on the rate limiter (an error aborts the whole call), issue the
region's full listing (a region error is logged and skipped), and process
every returned load balancer. -/
def processRegion (s : SLBFetchState)
    (region : String × Except Unit (List LoadBalancer)) : SLBFetchState :=
  if s.err.isSome then s
  else if s.uncached.isEmpty then s
  else
    let (wres, rl1) := s.rateLimiter.wait
    let s1 := { s with rateLimiter := rl1, rlWaits := s.rlWaits + 1 }
    match wres with
    | .timeout => { s1 with err := some "rate limiter error" }
    | .ok =>
      match region.2 with
      | .error _ => { s1 with remoteCalls := s1.remoteCalls + 1 }
      | .ok lbs =>
        (lbs.foldl processLB { s1 with remoteCalls := s1.remoteCalls + 1 })

/-- Body of the cache-check loop: a requested ID found in the tag cache
goes into the result map; a missed ID is appended to the outstanding
list in order. -/
def cacheCheckStep (tc : TagCache) (s : SLBFetchState) (id : String) :
    SLBFetchState :=
  match tc.get id with
  | (some tags, true) => { s with tagsMap := assocUpdate s.tagsMap id tags }
  | _ => { s with uncached := s.uncached ++ [id] }

/-- Cache-check phase over all requested IDs. -/
def cachePhase (tc : TagCache) (rl : RateLimiter) (instanceIDs : List String) :
    SLBFetchState :=
  instanceIDs.foldl (cacheCheckStep tc) ⟨[], [], tc, rl, none, 0, 0⟩

/-- Body of the final loop: an ID no region returned is recorded with an
empty tag set both in the result map and in the tag cache, so the remote
listing is not repeated for it. -/
def emptyTagStep (s : SLBFetchState) (id : String) : SLBFetchState :=
  { s with
    tagsMap := assocUpdate s.tagsMap id [],
    tagCache := s.tagCache.set id [] }

/-- `Client.GetSLBInstanceTags`: an empty request returns an empty map at
once; otherwise consult the tag cache, return immediately if it satisfies
everything, else fan out over the configured regions and finally cache an
empty tag set for every ID no region returned.  A rate-limiter error
aborts the call before the empty-tag phase. -/
def getSLBInstanceTags (tc : TagCache) (rl : RateLimiter)
    (regions : List (String × Except Unit (List LoadBalancer)))
    (instanceIDs : List String) : SLBFetchState :=
  if instanceIDs.isEmpty then ⟨[], [], tc, rl, none, 0, 0⟩
  else
    if (cachePhase tc rl instanceIDs).uncached.isEmpty then
      cachePhase tc rl instanceIDs
    else
      if (regions.foldl processRegion (cachePhase tc rl instanceIDs)).err.isSome
      then regions.foldl processRegion (cachePhase tc rl instanceIDs)
      else
        (regions.foldl processRegion (cachePhase tc rl instanceIDs)).uncached.foldl
          emptyTagStep
          (regions.foldl processRegion (cachePhase tc rl instanceIDs))

/-- The resolvability invariant threaded through `getSLBInstanceTags`:
every requested ID is either already a hit in the state's tag cache or
still recorded as outstanding. -/
def ResolvableInv (ids : List String) (s : SLBFetchState) : Prop :=
  ∀ id ∈ ids, ((s.tagCache.get id).2 = true) ∨ id ∈ s.uncached

/-! ### Collector layer (internal/collector) -/

/-- `RedisCollector.Collect`'s per-metric loop (redis.go lines 58-65, the
same shape as `SLBCollector.Collect`): `fetchMetric` is the outcome of
`CollectMetric` for one metric name — a list of emitted samples on
success, an error otherwise.  Returns the samples emitted in order and
the final `errorCount`. -/
def collectLoop {σ : Type} (fetchMetric : String → Except String (List σ))
    (metrics : List String) : List σ × ℕ :=
  metrics.foldl
    (fun acc m =>
      match fetchMetric m with
      | .ok samples => (acc.1 ++ samples, acc.2)
      | .error _ => (acc.1, acc.2 + 1))
    ([], 0)

/-- `RedisCollector.Collect` (redis.go lines 42-73) after the enabled
check: run the loop; if any metric failed, return the aggregate error
carrying the failure count, else no error.  The samples emitted on the
channel are returned alongside. -/
def redisCollect {σ : Type} (fetchMetric : String → Except String (List σ))
    (metrics : List String) : List σ × Option ℕ :=
  let (samples, errorCount) := collectLoop fetchMetric metrics
  (samples, if errorCount > 0 then some errorCount else none)

/-- Whether an `Except` is an error. -/
def isErr {ε α : Type} : Except ε α → Bool
  | .error _ => true
  | .ok _ => false

/-- `SLBCollector.buildDynamicSLBLabelValues` (the variant without the
region label, src/unnamed/part_002 lines 185-208): base labels
`[instance_id, protocol, port, vip]` followed by the `team`, `group`,
`name` label values.  The Go lookups are exactly `tags["team"]`,
`tags["Group"]` and `tags["Name"]`, each defaulting to the empty string;
`tags == nil` (here `none`) yields all three empty. -/
def buildDynamicSLBLabelValues (data : MetricData) (tags : Option Tags) :
    List String :=
  let team := match tags with
    | none => ""
    | some ts => (assocLookup ts "team").getD ""
  let group := match tags with
    | none => ""
    | some ts => (assocLookup ts "Group").getD ""
  let name := match tags with
    | none => ""
    | some ts => (assocLookup ts "Name").getD ""
  [data.instanceID, data.protocol, data.port, data.vip, team, group, name]

/-! ### Orchestrator (internal/exporter, Exporter.Collect) -/

/-- The exporter's internal gauges and counters (Go float64, so `ℚ`). -/
structure ExporterState where
  up : ℚ
  totalScrapes : ℚ
  scrapeErrors : ℚ
  lastScrapeError : ℚ
deriving Repr, DecidableEq

/-- One enabled/disabled collector together with the outcome its
`Collect` call would produce during this scrape. -/
structure CollectorRun where
  name : String
  enabled : Bool
  failed : Bool
deriving Repr, DecidableEq

/-- `Exporter.Collect` (src/unnamed/part_003 lines 151-217), abstracting
the scrape to: bump `totalScrapes`; on health-probe failure set `up := 0`,
bump `scrapeErrors` and set `lastScrapeError := 1`, on success set
`up := 1` and `lastScrapeError := 0`; invoke every enabled collector and
count the failed ones; if any failed add the count to `scrapeErrors` and
set `lastScrapeError := 1`, else set `lastScrapeError := 0`.  Returns the
final state and the names of the collectors invoked. -/
def exporterCollect (s : ExporterState) (healthOk : Bool)
    (collectors : List CollectorRun) : ExporterState × List String :=
  let s1 := { s with totalScrapes := s.totalScrapes + 1 }
  let s2 :=
    if healthOk then { s1 with up := 1, lastScrapeError := 0 }
    else { s1 with up := 0, scrapeErrors := s1.scrapeErrors + 1,
                   lastScrapeError := 1 }
  let invoked := (collectors.filter (fun c => c.enabled)).map (fun c => c.name)
  let errorCount :=
    ((collectors.filter (fun c => c.enabled)).filter (fun c => c.failed)).length
  let s3 :=
    if errorCount > 0 then
      { s2 with scrapeErrors := s2.scrapeErrors + errorCount,
                lastScrapeError := 1 }
    else { s2 with lastScrapeError := 0 }
  (s3, invoked)

/-! ## Helper lemmas -/

theorem assocLookup_filter_ne {β : Type} (l : List (String × β)) (k k2 : String)
    (h : k2 ≠ k) :
    assocLookup (l.filter (fun p => p.1 ≠ k)) k2 = assocLookup l k2 := by
  induction l with
  | nil => rfl
  | cons p rest ih =>
    rw [List.filter_cons]
    by_cases hp : p.1 = k
    · rw [if_neg (by simp [hp])]
      rw [ih]
      have hne : ¬ p.1 = k2 := by rw [hp]; exact fun e => h e.symm
      rw [show assocLookup (p :: rest) k2 = assocLookup rest k2 from by
        simp [assocLookup, hne]]
    · rw [if_pos (by simp [hp])]
      by_cases hk2 : p.1 = k2
      · simp [assocLookup, hk2]
      · simp only [assocLookup, if_neg hk2]
        simpa using ih

theorem assocLookup_update {β : Type} (l : List (String × β)) (k k2 : String)
    (v : β) :
    assocLookup (assocUpdate l k v) k2 =
      if k = k2 then some v else assocLookup l k2 := by
  by_cases h : k = k2
  · simp [assocUpdate, assocLookup, h]
  · have h2 : k2 ≠ k := fun e => h e.symm
    rw [if_neg h]
    rw [show assocLookup (assocUpdate l k v) k2
          = assocLookup (l.filter (fun p => p.1 ≠ k)) k2 from by
        simp [assocUpdate, assocLookup, h]]
    exact assocLookup_filter_ne l k k2 h2

/-- `TagCache.get` returns either a miss or a hit. -/
theorem TagCache.get_shape (tc : TagCache) (key : String) :
    tc.get key = (none, false) ∨ ∃ t, tc.get key = (some t, true) := by
  unfold TagCache.get
  cases assocLookup tc.cache key with
  | none => exact Or.inl rfl
  | some t => exact Or.inr ⟨t, rfl⟩

/-- A hit flag means the key is bound. -/
theorem TagCache.get_true_iff (tc : TagCache) (key : String) :
    (tc.get key).2 = true ↔ (assocLookup tc.cache key).isSome := by
  unfold TagCache.get
  cases assocLookup tc.cache key <;> simp

/-- `TagCache.set` makes its key a hit. -/
theorem TagCache.get_set_self (tc : TagCache) (k : String) (v : Tags) :
    (tc.set k v).get k = (some v, true) := by
  unfold TagCache.set TagCache.get
  simp [assocLookup_update]

/-- `TagCache.set` never turns a hit into a miss. -/
theorem TagCache.get_set_mono (tc : TagCache) (k k2 : String) (v : Tags)
    (h : (tc.get k2).2 = true) : ((tc.set k v).get k2).2 = true := by
  rw [TagCache.get_true_iff] at h ⊢
  unfold TagCache.set
  simp only [assocLookup_update]
  by_cases hk : k = k2 <;> simp [hk, h]

/-! ## Claim theorems -/

/-- C1: the extracted sample value follows a strict precedence — the
average; if the average is zero, the maximum; if the maximum is also
zero, the sum.  In particular average=0, maximum=7, sum=12 yields 7, and
average=0, maximum=0, sum=12 yields 12. -/
theorem extractValue_precedence :
    (∀ d : MetricData, d.average ≠ 0 → extractValue d = d.average) ∧
    (∀ d : MetricData, d.average = 0 → d.maximum ≠ 0 →
       extractValue d = d.maximum) ∧
    (∀ d : MetricData, d.average = 0 → d.maximum = 0 →
       extractValue d = d.sum) ∧
    (∀ d : MetricData, d.average = 0 → d.maximum = 7 → d.sum = 12 →
       extractValue d = 7) ∧
    (∀ d : MetricData, d.average = 0 → d.maximum = 0 → d.sum = 12 →
       extractValue d = 12) := by
  refine ⟨?_, ?_, ?_, ?_, ?_⟩ <;> intro d
  · intro h; simp [extractValue, h]
  · intro h1 h2; simp [extractValue, h1, h2]
  · intro h1 h2; simp [extractValue, h1, h2]
  · intro h1 h2 h3; norm_num [extractValue, h1, h2, h3]
  · intro h1 h2 h3; simp [extractValue, h1, h2, h3]

/-- Witness for C1: both spec examples evaluated concretely. -/
theorem extractValue_precedence_witness :
    extractValue ⟨0, "lb-1", "80", "tcp", "1.2.3.4", 12, 7, 0, 0⟩ = 7 ∧
    extractValue ⟨0, "lb-1", "80", "tcp", "1.2.3.4", 12, 0, 0, 0⟩ = 12 :=
  ⟨extractValue_precedence.2.2.2.1 _ rfl rfl rfl,
   extractValue_precedence.2.2.2.2 _ rfl rfl rfl⟩

/-- C2 counterexample: the claim asserts that the TagCache's `Get` also
returns `found=false` once the stored entry's age exceeds the cache TTL.
The embedded `TagCache.get` consults no clock at all (the source never
calls `time.Since` on tag entries, which carry no timestamp), so a stored
entry is a hit forever: in a 300-second-TTL tag cache, an entry remains
`found=true` at every later instant, here shown for the cache state that
exists at any age whatsoever. -/
theorem tagCache_get_ignores_ttl_cex :
    (((TagCache.new 300).set "lb-1" [("Team", "a")]).get "lb-1").2 = true := by
  rfl

/-- C2 amended: `MetricCache.Get` returns `found=false` both for an
absent key and for an entry whose age exceeds its TTL, leaving the
expired entry physically in place; `TagCache.Get` returns `found`
according to key presence alone, with no expiry check (its TTL field is
never consulted). -/
theorem cache_get_expiry_amended :
    (∀ (α : Type) (mc : MetricCache α) (now : ℤ) (key : String),
       assocLookup mc.cache key = none → mc.get now key = (none, false)) ∧
    (∀ (α : Type) (mc : MetricCache α) (now : ℤ) (key : String)
       (e : CacheEntry α),
       assocLookup mc.cache key = some e → now - e.timestamp > e.ttl →
       mc.get now key = (none, false) ∧ assocLookup mc.cache key = some e) ∧
    (∀ (tc : TagCache) (key : String),
       assocLookup tc.cache key = none → tc.get key = (none, false)) ∧
    (∀ (tc : TagCache) (key : String),
       (tc.get key).2 = (assocLookup tc.cache key).isSome) := by
  refine ⟨?_, ?_, ?_, ?_⟩
  · intro α mc now key h
    simp [MetricCache.get, h]
  · intro α mc now key e h hexp
    refine ⟨?_, h⟩
    have hx : e.isExpired now = true := by
      simp [CacheEntry.isExpired]
      exact hexp
    simp [MetricCache.get, h, hx]
  · intro tc key h
    simp [TagCache.get, h]
  · intro tc key
    unfold TagCache.get
    cases assocLookup tc.cache key <;> simp

/-- Witness for C2 amended: a 30-TTL metric cache entry written at
instant 0 is a miss at instant 31 while still being physically present. -/
theorem cache_get_expiry_amended_witness :
    ((MetricCache.new ℕ 30).set 0 "ns:cpu" 5).get 31 "ns:cpu" = (none, false) ∧
    assocLookup ((MetricCache.new ℕ 30).set 0 "ns:cpu" 5).cache "ns:cpu" =
      some ⟨5, 0, 30⟩ :=
  cache_get_expiry_amended.2.1 ℕ _ 31 "ns:cpu" ⟨5, 0, 30⟩ rfl (by norm_num)

/-- C3: a freshly constructed rate limiter with burst `B > 0` admits
exactly `B` consecutive `Wait` calls immediately (each receives a
buffered token), and the next call finds the token channel empty, so it
must block for a refill and, absent one, returns the timeout error. -/
theorem rateLimiter_burst_admission (r B : ℕ) (h : 0 < B) :
    ((NewRateLimiter r B).waitN B).1 = List.replicate B WaitResult.ok ∧
    (((NewRateLimiter r B).waitN B).2).wait =
      (WaitResult.timeout, ((NewRateLimiter r B).waitN B).2) := by
  have key : ∀ (n : ℕ) (rl : RateLimiter), n ≤ rl.tokens →
      (rl.waitN n).1 = List.replicate n WaitResult.ok ∧
      (rl.waitN n).2 = { rl with tokens := rl.tokens - n } := by
    intro n
    induction n with
    | zero => intro rl _; exact ⟨rfl, rfl⟩
    | succ m ih =>
      intro rl hle
      have hpos : rl.tokens > 0 := Nat.lt_of_lt_of_le (Nat.succ_pos m) hle
      have hw : rl.wait = (.ok, { rl with tokens := rl.tokens - 1 }) := by
        simp [RateLimiter.wait, hpos]
      have hle2 : m ≤ rl.tokens - 1 := by omega
      obtain ⟨ih1, ih2⟩ := ih { rl with tokens := rl.tokens - 1 } hle2
      constructor
      · simp [RateLimiter.waitN, hw, ih1, List.replicate_succ]
      · simp only [RateLimiter.waitN, hw, ih2]
        congr 1
        omega
  obtain ⟨h1, h2⟩ := key B (NewRateLimiter r B) (le_refl _)
  refine ⟨h1, ?_⟩
  rw [h2]
  simp [NewRateLimiter, RateLimiter.wait]

/-- Witness for C3: burst 3 admits exactly 3 immediate waits. -/
theorem rateLimiter_burst_admission_witness :
    0 < 3 ∧
    (((NewRateLimiter 10 3).waitN 3).1 = List.replicate 3 WaitResult.ok ∧
     (((NewRateLimiter 10 3).waitN 3).2).wait =
       (WaitResult.timeout, ((NewRateLimiter 10 3).waitN 3).2)) :=
  ⟨by decide, rateLimiter_burst_admission 10 3 (by decide)⟩

/-- C4 counterexample: after `Close`, a `Wait` call does not return an
error — it succeeds by consuming a leftover token.  `Wait` selects only
on the timeout context and the token channel; the cancellation context
set by `Close` is never consulted, and the channel is not drained. -/
theorem rateLimiter_close_leftover_token_cex :
    (((NewRateLimiter 10 1).close).wait).1 = WaitResult.ok := by
  rfl

/-- C4 amended: `Close` only stops the refill (post-close ticks add no
tokens); `Wait` is unaffected by `Close` — with a buffered token left it
still succeeds by consuming it, and with none it blocks until the
5-second timeout and returns the timeout error rather than hanging. -/
theorem rateLimiter_close_behavior :
    (∀ rl : RateLimiter, (rl.close).refillTick = rl.close) ∧
    (∀ rl : RateLimiter, 0 < rl.tokens →
       (rl.close).wait = (.ok, { rl.close with tokens := rl.tokens - 1 })) ∧
    (∀ rl : RateLimiter, rl.tokens = 0 →
       (rl.close).wait = (.timeout, rl.close)) := by
  refine ⟨?_, ?_, ?_⟩
  · intro rl
    simp [RateLimiter.close, RateLimiter.refillTick]
  · intro rl h
    simp [RateLimiter.close, RateLimiter.wait, h]
  · intro rl h
    simp [RateLimiter.close, RateLimiter.wait, h]

/-- Witness for C4 amended: a closed limiter with one leftover token
still hands it out; a closed empty limiter times out. -/
theorem rateLimiter_close_behavior_witness :
    0 < (NewRateLimiter 10 1).tokens ∧
    ((NewRateLimiter 10 1).close).wait =
      (.ok, { (NewRateLimiter 10 1).close with tokens := 0 }) :=
  ⟨by decide, rateLimiter_close_behavior.2.1 (NewRateLimiter 10 1) (by decide)⟩

/-- C8 counterexample: the claim asserts that each allow-listed tag key
is looked up under both conventional casings, so a tag stored under
either casing yields its value.  But the source looks up exactly
`tags["team"]`, `tags["Group"]` and `tags["Name"]`: a tag stored under
`"Team"` (uppercase) yields the empty string for the Team label. -/
theorem slb_tag_casing_cex :
    buildDynamicSLBLabelValues ⟨0, "lb-1", "80", "tcp", "1.2.3.4", 0, 0, 0, 0⟩
        (some [("Team", "alpha")]) =
      ["lb-1", "tcp", "80", "1.2.3.4", "", "", ""] := by
  rfl

/-- C8 amended: only the allow-listed Team/Group/Name positions are
surfaced beyond the base labels, each defaulting to the empty string,
but the lookup uses a single fixed casing per key — lowercase `"team"`
for Team and capitalized `"Group"` and `"Name"` for the other two — so a
tag stored only under the opposite casing (or any non-allow-listed key)
is dropped. -/
theorem slb_tag_labels_amended :
    (∀ (data : MetricData) (ts : Tags),
       buildDynamicSLBLabelValues data (some ts) =
         [data.instanceID, data.protocol, data.port, data.vip,
          (assocLookup ts "team").getD "", (assocLookup ts "Group").getD "",
          (assocLookup ts "Name").getD ""]) ∧
    (∀ data : MetricData,
       buildDynamicSLBLabelValues data none =
         [data.instanceID, data.protocol, data.port, data.vip, "", "", ""]) ∧
    (∀ (data : MetricData) (ts : Tags),
       assocLookup ts "team" = none → assocLookup ts "Group" = none →
       assocLookup ts "Name" = none →
       buildDynamicSLBLabelValues data (some ts) =
         [data.instanceID, data.protocol, data.port, data.vip, "", "", ""]) := by
  refine ⟨fun data ts => rfl, fun data => rfl, ?_⟩
  intro data ts h1 h2 h3
  simp [buildDynamicSLBLabelValues, h1, h2, h3]

/-- Witness for C8 amended: a map holding only `"Team"` (wrong casing)
and `"Env"` (not allow-listed) surfaces three empty tag labels. -/
theorem slb_tag_labels_amended_witness :
    buildDynamicSLBLabelValues ⟨0, "lb-2", "443", "https", "10.0.0.1", 0, 0, 0, 0⟩
        (some [("Team", "alpha"), ("Env", "prod")]) =
      ["lb-2", "https", "443", "10.0.0.1", "", "", ""] :=
  slb_tag_labels_amended.2.2 _ [("Team", "alpha"), ("Env", "prod")] rfl rfl rfl

/-- C9 counterexample: a health-probe failure does not leave the
scrape-error counter as it would be on success — the probe-failure
branch increments it.  With no collectors configured, the failed-probe
scrape ends with `scrapeErrors = 1` while the successful-probe scrape
ends with `scrapeErrors = 0`. -/
theorem health_probe_frame_cex :
    (exporterCollect ⟨1, 0, 0, 0⟩ false []).1.scrapeErrors ≠
      (exporterCollect ⟨1, 0, 0, 0⟩ true []).1.scrapeErrors := by
  norm_num [exporterCollect]

/-- C9 amended: relative to a successful probe, a health-probe failure
sets the up gauge to 0 instead of 1 and additionally increments the
scrape-error counter by exactly one; the final last-scrape-error flag,
the total-scrape counter, and the set of collectors invoked are
identical in both runs. -/
theorem health_probe_frame_amended :
    ∀ (s : ExporterState) (collectors : List CollectorRun),
      (exporterCollect s false collectors).1.up = 0 ∧
      (exporterCollect s true collectors).1.up = 1 ∧
      (exporterCollect s false collectors).1.totalScrapes =
        (exporterCollect s true collectors).1.totalScrapes ∧
      (exporterCollect s false collectors).1.scrapeErrors =
        (exporterCollect s true collectors).1.scrapeErrors + 1 ∧
      (exporterCollect s false collectors).1.lastScrapeError =
        (exporterCollect s true collectors).1.lastScrapeError ∧
      (exporterCollect s false collectors).2 =
        (exporterCollect s true collectors).2 := by
  intro s collectors
  by_cases h :
      0 < (collectors.filter (fun a => a.failed && a.enabled)).length
  · refine ⟨?_, ?_, ?_, ?_, ?_, ?_⟩ <;> simp [exporterCollect, h] <;> ring
  · refine ⟨?_, ?_, ?_, ?_, ?_, ?_⟩ <;> simp [exporterCollect, h]

/-- C5: `GetMetricData` consults the response cache first — a hit is
returned with no rate-limiter wait and no remote call and no state
change; on a miss a token is acquired and the remote call performed, a
successful response is stored in the cache and returned, a rate-limiter
timeout is returned with no remote call and no cache write, and a
remote failure is returned with no cache write. -/
theorem getMetricData_flow :
    (∀ (α : Type) (c : Client α) (now : ℤ)
       (fetch : String → String → Except String α) (ns m : String)
       (data : α),
       c.cache.get now (cacheKey ns m) = (some data, true) →
       c.getMetricData now fetch ns m = ⟨.ok data, c, 0, 0⟩) ∧
    (∀ (α : Type) (c : Client α) (now : ℤ)
       (fetch : String → String → Except String α) (ns m : String),
       c.cache.get now (cacheKey ns m) = (none, false) →
       c.rateLimiter.tokens = 0 →
       c.getMetricData now fetch ns m =
         ⟨.error "rate limiter wait failed", c, 1, 0⟩) ∧
    (∀ (α : Type) (c : Client α) (now : ℤ)
       (fetch : String → String → Except String α) (ns m : String)
       (e : String),
       c.cache.get now (cacheKey ns m) = (none, false) →
       0 < c.rateLimiter.tokens →
       fetch ns m = .error e →
       c.getMetricData now fetch ns m =
         ⟨.error e,
          { c with rateLimiter :=
              { c.rateLimiter with tokens := c.rateLimiter.tokens - 1 } },
          1, 1⟩) ∧
    (∀ (α : Type) (c : Client α) (now : ℤ)
       (fetch : String → String → Except String α) (ns m : String)
       (response : α),
       c.cache.get now (cacheKey ns m) = (none, false) →
       0 < c.rateLimiter.tokens →
       fetch ns m = .ok response →
       c.getMetricData now fetch ns m =
         ⟨.ok response,
          { cache := c.cache.set now (cacheKey ns m) response,
            rateLimiter :=
              { c.rateLimiter with tokens := c.rateLimiter.tokens - 1 } },
          1, 1⟩) := by
  refine ⟨?_, ?_, ?_, ?_⟩
  · intro α c now fetch ns m data h
    simp [Client.getMetricData, h]
  · intro α c now fetch ns m h htok
    have hw : c.rateLimiter.wait = (.timeout, c.rateLimiter) := by
      simp [RateLimiter.wait, htok]
    simp [Client.getMetricData, h, hw]
  · intro α c now fetch ns m e h htok hf
    have hw : c.rateLimiter.wait =
        (.ok, { c.rateLimiter with tokens := c.rateLimiter.tokens - 1 }) := by
      simp [RateLimiter.wait, htok]
    simp [Client.getMetricData, h, hw, hf]
  · intro α c now fetch ns m response h htok hf
    have hw : c.rateLimiter.wait =
        (.ok, { c.rateLimiter with tokens := c.rateLimiter.tokens - 1 }) := by
      simp [RateLimiter.wait, htok]
    simp [Client.getMetricData, h, hw, hf]

/-- Witness for C5: a miss on an empty cache with tokens available
performs the remote call and stores the response. -/
theorem getMetricData_flow_witness :
    (Client.mk (MetricCache.new ℕ 30) (NewRateLimiter 10 2)).getMetricData 0
        (fun _ _ => Except.ok 42) "acs_kvstore" "CpuUsage" =
      ⟨Except.ok 42,
       { cache := (MetricCache.new ℕ 30).set 0 (cacheKey "acs_kvstore" "CpuUsage") 42,
         rateLimiter := { NewRateLimiter 10 2 with tokens := 1 } },
       1, 1⟩ :=
  getMetricData_flow.2.2.2 ℕ
    (Client.mk (MetricCache.new ℕ 30) (NewRateLimiter 10 2)) 0
    (fun _ _ => Except.ok 42) "acs_kvstore" "CpuUsage" 42 rfl (by decide) rfl

/-- C7: per-metric fetch failures do not stop collection — every metric
name is visited, all samples of the successful ones are emitted in
order, and the returned aggregate error is present exactly when at
least one metric failed, reporting the number of failed metrics.  The
second conjunct is the spec's example: 5 configured metrics with 2
failures give the 3 successful metrics' samples and an aggregate error
of exactly 2. -/
theorem collect_accumulates_failures :
    (∀ (σ : Type) (fetchMetric : String → Except String (List σ))
       (metrics : List String),
       (redisCollect fetchMetric metrics).1 =
         metrics.flatMap (fun m =>
           match fetchMetric m with
           | .ok samples => samples
           | .error _ => []) ∧
       (redisCollect fetchMetric metrics).2 =
         (if 0 < (metrics.filter (fun m => isErr (fetchMetric m))).length
          then some (metrics.filter (fun m => isErr (fetchMetric m))).length
          else none)) ∧
    redisCollect
        (fun m => if m = "m2" ∨ m = "m4" then Except.error "remote failure"
                  else Except.ok [m ++ ":sample"])
        ["m1", "m2", "m3", "m4", "m5"] =
      (["m1:sample", "m3:sample", "m5:sample"], some 2) := by
  have loop : ∀ (σ : Type) (fetchMetric : String → Except String (List σ))
      (metrics : List String) (acc : List σ × ℕ),
      metrics.foldl
        (fun acc m =>
          match fetchMetric m with
          | .ok samples => (acc.1 ++ samples, acc.2)
          | .error _ => (acc.1, acc.2 + 1)) acc =
      (acc.1 ++ metrics.flatMap (fun m =>
          match fetchMetric m with
          | .ok samples => samples
          | .error _ => []),
       acc.2 + (metrics.filter (fun m => isErr (fetchMetric m))).length) := by
    intro σ fetchMetric metrics
    induction metrics with
    | nil => intro acc; simp
    | cons m rest ih =>
      intro acc
      cases hm : fetchMetric m with
      | ok samples =>
        simp only [List.foldl_cons, hm, ih, List.flatMap_cons,
          List.filter_cons, isErr, hm]
        simp [hm, isErr]
      | error e =>
        simp only [List.foldl_cons, hm, ih, List.flatMap_cons,
          List.filter_cons, isErr, hm]
        simp [hm, isErr]
        omega
  constructor
  · intro σ fetchMetric metrics
    constructor
    · simp [redisCollect, collectLoop, loop]
    · simp [redisCollect, collectLoop, loop]
  · rfl

/-! ## Helper lemmas for the SLB tag-lookup phases -/

theorem cacheCheck_foldl_frame (tc : TagCache) (ids : List String) :
    ∀ s : SLBFetchState,
      (ids.foldl (cacheCheckStep tc) s).tagCache = s.tagCache ∧
      (ids.foldl (cacheCheckStep tc) s).rateLimiter = s.rateLimiter ∧
      (ids.foldl (cacheCheckStep tc) s).err = s.err ∧
      (ids.foldl (cacheCheckStep tc) s).remoteCalls = s.remoteCalls ∧
      (ids.foldl (cacheCheckStep tc) s).rlWaits = s.rlWaits ∧
      (ids.foldl (cacheCheckStep tc) s).uncached =
        s.uncached ++ ids.filter (fun id => !(tc.get id).2) := by
  induction ids with
  | nil => intro s; simp
  | cons id rest ih =>
    intro s
    rcases TagCache.get_shape tc id with hmiss | ⟨t, hhit⟩
    · have hstep : cacheCheckStep tc s id =
          { s with uncached := s.uncached ++ [id] } := by
        unfold cacheCheckStep; rw [hmiss]
      have hflag : (!(tc.get id).2) = true := by rw [hmiss]; rfl
      obtain ⟨h1, h2, h3, h4, h5, h6⟩ := ih { s with uncached := s.uncached ++ [id] }
      rw [List.foldl_cons, hstep]
      refine ⟨h1, h2, h3, h4, h5, ?_⟩
      rw [h6]
      simp only [List.filter_cons, hflag, if_pos]
      simp [List.append_assoc]
    · have hstep : cacheCheckStep tc s id =
          { s with tagsMap := assocUpdate s.tagsMap id t } := by
        unfold cacheCheckStep; rw [hhit]
      have hflag : (!(tc.get id).2) = false := by rw [hhit]; rfl
      obtain ⟨h1, h2, h3, h4, h5, h6⟩ :=
        ih { s with tagsMap := assocUpdate s.tagsMap id t }
      rw [List.foldl_cons, hstep]
      refine ⟨h1, h2, h3, h4, h5, ?_⟩
      rw [h6]
      simp only [List.filter_cons, hflag]
      simp

theorem cacheCheckStep_tagsMap_mono (tc : TagCache) (s : SLBFetchState)
    (id k : String) (h : (assocLookup s.tagsMap k).isSome) :
    (assocLookup (cacheCheckStep tc s id).tagsMap k).isSome := by
  unfold cacheCheckStep
  rcases TagCache.get_shape tc id with hmiss | ⟨t, hhit⟩
  · rw [hmiss]; exact h
  · rw [hhit]
    simp only [assocLookup_update]
    by_cases hk : id = k <;> simp [hk, h]

theorem cacheCheckStep_tagsMap_hit (tc : TagCache) (s : SLBFetchState)
    (id : String) (h : (tc.get id).2 = true) :
    (assocLookup (cacheCheckStep tc s id).tagsMap id).isSome := by
  rcases TagCache.get_shape tc id with hmiss | ⟨t, hhit⟩
  · rw [hmiss] at h; cases h
  · unfold cacheCheckStep; rw [hhit]
    simp [assocLookup_update]

theorem cacheCheck_foldl_tagsMap (tc : TagCache) (ids : List String) :
    ∀ s : SLBFetchState,
      (∀ k, (assocLookup s.tagsMap k).isSome →
        (assocLookup (ids.foldl (cacheCheckStep tc) s).tagsMap k).isSome) ∧
      (∀ id ∈ ids, (tc.get id).2 = true →
        (assocLookup (ids.foldl (cacheCheckStep tc) s).tagsMap id).isSome) := by
  induction ids with
  | nil =>
    intro s
    exact ⟨fun k h => h, fun id hid => absurd hid (List.not_mem_nil id)⟩
  | cons id rest ih =>
    intro s
    obtain ⟨ihMono, ihMem⟩ := ih (cacheCheckStep tc s id)
    rw [List.foldl_cons]
    refine ⟨?_, ?_⟩
    · intro k h
      exact ihMono k (cacheCheckStep_tagsMap_mono tc s id k h)
    · intro id2 hid2 hhit
      rcases List.mem_cons.mp hid2 with heq | hmem
      · subst heq
        exact ihMono id2 (cacheCheckStep_tagsMap_hit tc s id2 hhit)
      · exact ihMem id2 hmem hhit

theorem processLB_inv (ids : List String) (s : SLBFetchState)
    (lb : LoadBalancer) (h : ResolvableInv ids s) :
    ResolvableInv ids (processLB s lb) := by
  intro id hid
  unfold processLB
  by_cases hmem : lb.loadBalancerId ∈ s.uncached
  · rw [if_pos hmem]
    rcases h id hid with hc | hu
    · exact Or.inl (TagCache.get_set_mono _ _ _ _ hc)
    · by_cases heq : id = lb.loadBalancerId
      · subst heq
        exact Or.inl (by rw [TagCache.get_set_self])
      · refine Or.inr ?_
        simp only [List.mem_filter]
        exact ⟨hu, by simp [heq]⟩
  · rw [if_neg hmem]; exact h id hid

theorem processLB_foldl_inv (ids : List String) (lbs : List LoadBalancer) :
    ∀ s : SLBFetchState, ResolvableInv ids s →
      ResolvableInv ids (lbs.foldl processLB s) := by
  induction lbs with
  | nil => intro s h; exact h
  | cons lb rest ih =>
    intro s h
    rw [List.foldl_cons]
    exact ih (processLB s lb) (processLB_inv ids s lb h)

theorem processRegion_inv (ids : List String) (s : SLBFetchState)
    (region : String × Except Unit (List LoadBalancer))
    (h : ResolvableInv ids s) : ResolvableInv ids (processRegion s region) := by
  unfold processRegion
  by_cases he : s.err.isSome
  · rw [if_pos he]; exact h
  · rw [if_neg he]
    by_cases hu : s.uncached.isEmpty
    · rw [if_pos hu]; exact h
    · rw [if_neg hu]
      rcases hw : s.rateLimiter.wait with ⟨wres, rl1⟩
      cases wres with
      | timeout =>
        intro id hid
        rcases h id hid with hc | hmem
        · exact Or.inl hc
        · exact Or.inr hmem
      | ok =>
        rcases hreg : region.2 with e | lbs
        · intro id hid
          rcases h id hid with hc | hmem
          · exact Or.inl hc
          · exact Or.inr hmem
        · refine processLB_foldl_inv ids lbs _ ?_
          intro id hid
          rcases h id hid with hc | hmem
          · exact Or.inl hc
          · exact Or.inr hmem

theorem processRegion_foldl_inv (ids : List String)
    (regions : List (String × Except Unit (List LoadBalancer))) :
    ∀ s : SLBFetchState, ResolvableInv ids s →
      ResolvableInv ids (regions.foldl processRegion s) := by
  induction regions with
  | nil => intro s h; exact h
  | cons region rest ih =>
    intro s h
    rw [List.foldl_cons]
    exact ih (processRegion s region) (processRegion_inv ids s region h)

theorem emptyTag_foldl_mono (L : List String) :
    ∀ (s : SLBFetchState) (id : String), ((s.tagCache.get id).2 = true) →
      (((L.foldl emptyTagStep s).tagCache.get id).2 = true) := by
  induction L with
  | nil => intro s id h; exact h
  | cons x rest ih =>
    intro s id h
    rw [List.foldl_cons]
    exact ih (emptyTagStep s x) id (TagCache.get_set_mono _ _ _ _ h)

theorem emptyTag_foldl_mem (L : List String) :
    ∀ (s : SLBFetchState) (id : String), id ∈ L →
      (((L.foldl emptyTagStep s).tagCache.get id).2 = true) := by
  induction L with
  | nil => intro s id h; cases h
  | cons x rest ih =>
    intro s id h
    rw [List.foldl_cons]
    rcases List.mem_cons.mp h with heq | hmem
    · subst heq
      exact emptyTag_foldl_mono rest (emptyTagStep s id) id
        (by rw [show (emptyTagStep s id).tagCache = s.tagCache.set id []
                  from rfl, TagCache.get_set_self])
    · exact ih (emptyTagStep s x) id hmem

/-- Starting state of the region fan-out: the cache-check phase leaves
the tag cache untouched and records exactly the missed IDs as
outstanding, so the resolvability invariant holds. -/
theorem cachePhase_inv (tc : TagCache) (rl : RateLimiter) (ids : List String) :
    ResolvableInv ids (cachePhase tc rl ids) := by
  obtain ⟨h1, _, _, _, _, h6⟩ :=
    cacheCheck_foldl_frame tc ids ⟨[], [], tc, rl, none, 0, 0⟩
  intro id hid
  rcases TagCache.get_shape tc id with hmiss | ⟨t, hhit⟩
  · refine Or.inr ?_
    unfold cachePhase
    rw [h6]
    simp only [List.nil_append, List.mem_filter]
    exact ⟨hid, by rw [hmiss]; rfl⟩
  · refine Or.inl ?_
    show ((cachePhase tc rl ids).tagCache.get id).2 = true
    unfold cachePhase
    rw [h1]
    rw [hhit]

/-- When `getSLBInstanceTags` completes without a rate-limiter error,
every requested ID ends up a hit in the returned tag cache: it was
either cached already, found in some region (and cached), or returned by
no region (and cached with an empty tag set). -/
theorem getSLB_resolves_all (tc : TagCache) (rl : RateLimiter)
    (regions : List (String × Except Unit (List LoadBalancer)))
    (ids : List String)
    (h : (getSLBInstanceTags tc rl regions ids).err = none) :
    ∀ id ∈ ids,
      (((getSLBInstanceTags tc rl regions ids).tagCache).get id).2 = true := by
  unfold getSLBInstanceTags at h ⊢
  by_cases hids : ids.isEmpty
  · rw [if_pos hids]
    intro id hid
    rw [List.isEmpty_iff] at hids
    subst hids
    cases hid
  · rw [if_neg hids] at h ⊢
    by_cases hu : (cachePhase tc rl ids).uncached.isEmpty
    · rw [if_pos hu] at h ⊢
      intro id hid
      rcases cachePhase_inv tc rl ids id hid with hc | hmem
      · exact hc
      · rw [List.isEmpty_iff] at hu
        rw [hu] at hmem
        cases hmem
    · rw [if_neg hu] at h ⊢
      by_cases he :
          (regions.foldl processRegion (cachePhase tc rl ids)).err.isSome
      · rw [if_pos he] at h
        rw [h] at he
        cases he
      · rw [if_neg he] at h ⊢
        intro id hid
        have inv1 : ResolvableInv ids
            (regions.foldl processRegion (cachePhase tc rl ids)) :=
          processRegion_foldl_inv ids regions _ (cachePhase_inv tc rl ids)
        rcases inv1 id hid with hc | hmem
        · exact emptyTag_foldl_mono _ _ id hc
        · exact emptyTag_foldl_mem _ _ id hmem

/-- When every requested ID is already a hit in the tag cache, the call
is answered entirely from cache: no error, no remote region listing, no
rate-limiter wait, and both the tag cache and the rate limiter are
returned unchanged, with every requested ID bound in the result map. -/
theorem getSLB_all_cached (tc : TagCache) (rl : RateLimiter)
    (regions : List (String × Except Unit (List LoadBalancer)))
    (ids : List String) (h : ∀ id ∈ ids, (tc.get id).2 = true) :
    (getSLBInstanceTags tc rl regions ids).err = none ∧
    (getSLBInstanceTags tc rl regions ids).remoteCalls = 0 ∧
    (getSLBInstanceTags tc rl regions ids).rlWaits = 0 ∧
    (getSLBInstanceTags tc rl regions ids).tagCache = tc ∧
    (getSLBInstanceTags tc rl regions ids).rateLimiter = rl ∧
    ∀ id ∈ ids,
      (assocLookup (getSLBInstanceTags tc rl regions ids).tagsMap id).isSome := by
  unfold getSLBInstanceTags
  by_cases hids : ids.isEmpty
  · rw [if_pos hids]
    refine ⟨rfl, rfl, rfl, rfl, rfl, ?_⟩
    intro id hid
    rw [List.isEmpty_iff] at hids
    subst hids
    cases hid
  · rw [if_neg hids]
    obtain ⟨h1, h2, h3, h4, h5, h6⟩ :=
      cacheCheck_foldl_frame tc ids ⟨[], [], tc, rl, none, 0, 0⟩
    have hfilter : ids.filter (fun id => !(tc.get id).2) = [] := by
      rw [List.filter_eq_nil_iff]
      intro id hid
      rw [h id hid]
      simp
    have hu : (cachePhase tc rl ids).uncached = [] := by
      unfold cachePhase
      rw [h6, hfilter]
      rfl
    rw [if_pos (by rw [hu]; rfl)]
    obtain ⟨hMono, hMem⟩ :=
      cacheCheck_foldl_tagsMap tc ids ⟨[], [], tc, rl, none, 0, 0⟩
    exact ⟨h3, h4, h5, h1, h2, fun id hid => hMem id hid (h id hid)⟩

/-- C10: `GetSLBInstanceTags` with an empty ID list returns an empty
(allocated) map and no error without touching the rate limiter, the
remote API, or the tag cache; and when every requested ID is already in
the tag cache the call is answered entirely from cache, again with no
rate-limiter wait, no remote call, and no state change. -/
theorem getSLBInstanceTags_short_circuit :
    (∀ (tc : TagCache) (rl : RateLimiter)
       (regions : List (String × Except Unit (List LoadBalancer))),
       getSLBInstanceTags tc rl regions [] = ⟨[], [], tc, rl, none, 0, 0⟩) ∧
    (∀ (tc : TagCache) (rl : RateLimiter)
       (regions : List (String × Except Unit (List LoadBalancer)))
       (ids : List String),
       (∀ id ∈ ids, (tc.get id).2 = true) →
       (getSLBInstanceTags tc rl regions ids).err = none ∧
       (getSLBInstanceTags tc rl regions ids).remoteCalls = 0 ∧
       (getSLBInstanceTags tc rl regions ids).rlWaits = 0 ∧
       (getSLBInstanceTags tc rl regions ids).tagCache = tc ∧
       (getSLBInstanceTags tc rl regions ids).rateLimiter = rl ∧
       ∀ id ∈ ids,
         (assocLookup (getSLBInstanceTags tc rl regions ids).tagsMap
           id).isSome) := by
  constructor
  · intro tc rl regions
    rfl
  · intro tc rl regions ids h
    exact getSLB_all_cached tc rl regions ids h

/-- Witness for C10: a request fully covered by the tag cache is served
without any remote interaction. -/
theorem getSLBInstanceTags_short_circuit_witness :
    (∀ id ∈ ["lb-1"],
       (((TagCache.new 300).set "lb-1" [("Group", "g")]).get id).2 = true) ∧
    ((getSLBInstanceTags ((TagCache.new 300).set "lb-1" [("Group", "g")])
        (NewRateLimiter 10 5) [("cn-hangzhou", Except.ok [])]
        ["lb-1"]).err = none ∧
     (getSLBInstanceTags ((TagCache.new 300).set "lb-1" [("Group", "g")])
        (NewRateLimiter 10 5) [("cn-hangzhou", Except.ok [])]
        ["lb-1"]).remoteCalls = 0 ∧
     (getSLBInstanceTags ((TagCache.new 300).set "lb-1" [("Group", "g")])
        (NewRateLimiter 10 5) [("cn-hangzhou", Except.ok [])]
        ["lb-1"]).rlWaits = 0 ∧
     (getSLBInstanceTags ((TagCache.new 300).set "lb-1" [("Group", "g")])
        (NewRateLimiter 10 5) [("cn-hangzhou", Except.ok [])]
        ["lb-1"]).tagCache = (TagCache.new 300).set "lb-1" [("Group", "g")] ∧
     (getSLBInstanceTags ((TagCache.new 300).set "lb-1" [("Group", "g")])
        (NewRateLimiter 10 5) [("cn-hangzhou", Except.ok [])]
        ["lb-1"]).rateLimiter = NewRateLimiter 10 5 ∧
     ∀ id ∈ ["lb-1"],
       (assocLookup
         (getSLBInstanceTags ((TagCache.new 300).set "lb-1" [("Group", "g")])
           (NewRateLimiter 10 5) [("cn-hangzhou", Except.ok [])]
           ["lb-1"]).tagsMap id).isSome) :=
  ⟨by decide, getSLBInstanceTags_short_circuit.2 _ _ _ _ (by decide)⟩

/-- C6: after a `GetSLBInstanceTags` call that completed without a
rate-limiter error, every requested ID — including IDs found in no
region, cached with an empty tag set — is a hit in the resulting tag
cache; an immediate second call with the same IDs therefore issues zero
remote region listings and zero rate-limiter waits and returns without
error. -/
theorem getSLBInstanceTags_idempotent (tc : TagCache) (rl : RateLimiter)
    (regions : List (String × Except Unit (List LoadBalancer)))
    (ids : List String)
    (h : (getSLBInstanceTags tc rl regions ids).err = none) :
    (∀ id ∈ ids,
       (((getSLBInstanceTags tc rl regions ids).tagCache).get id).2 = true) ∧
    (getSLBInstanceTags (getSLBInstanceTags tc rl regions ids).tagCache
       (getSLBInstanceTags tc rl regions ids).rateLimiter regions
       ids).remoteCalls = 0 ∧
    (getSLBInstanceTags (getSLBInstanceTags tc rl regions ids).tagCache
       (getSLBInstanceTags tc rl regions ids).rateLimiter regions
       ids).rlWaits = 0 ∧
    (getSLBInstanceTags (getSLBInstanceTags tc rl regions ids).tagCache
       (getSLBInstanceTags tc rl regions ids).rateLimiter regions
       ids).err = none := by
  have hall := getSLB_resolves_all tc rl regions ids h
  obtain ⟨e1, e2, e3, _, _, _⟩ :=
    getSLB_all_cached (getSLBInstanceTags tc rl regions ids).tagCache
      (getSLBInstanceTags tc rl regions ids).rateLimiter regions ids hall
  exact ⟨hall, e2, e3, e1⟩

/-- Witness for C6: a first call resolving one ID from a region and one
from nowhere (cached empty) makes the second call free of remote work. -/
theorem getSLBInstanceTags_idempotent_witness :
    (getSLBInstanceTags (TagCache.new 300) (NewRateLimiter 10 5)
       [("cn-hangzhou", Except.ok [⟨"lb-a", [("Team", "x")]⟩])]
       ["lb-a", "lb-b"]).err = none ∧
    (getSLBInstanceTags
       (getSLBInstanceTags (TagCache.new 300) (NewRateLimiter 10 5)
         [("cn-hangzhou", Except.ok [⟨"lb-a", [("Team", "x")]⟩])]
         ["lb-a", "lb-b"]).tagCache
       (getSLBInstanceTags (TagCache.new 300) (NewRateLimiter 10 5)
         [("cn-hangzhou", Except.ok [⟨"lb-a", [("Team", "x")]⟩])]
         ["lb-a", "lb-b"]).rateLimiter
       [("cn-hangzhou", Except.ok [⟨"lb-a", [("Team", "x")]⟩])]
       ["lb-a", "lb-b"]).remoteCalls = 0 :=
  ⟨by decide,
   (getSLBInstanceTags_idempotent (TagCache.new 300) (NewRateLimiter 10 5)
     [("cn-hangzhou", Except.ok [⟨"lb-a", [("Team", "x")]⟩])]
     ["lb-a", "lb-b"] (by decide)).2.1⟩

end AlicloudExporter
